import Mathlib

/-
Verification development for the gousers repository (Go).

The definitions below are a shallow embedding of the core of the
repository: the utmp record decoder (pkg/utmp/utmp.go), the session
tracker and login classifier (the GetUsers / LoginType revision embedded
with utmp_test.go, and the GetUserType / Users / GetUsersStat revision in
pkg/utmp/users.go), the statistics aggregator (GetLoginStat and
GetUsersStat), and the polling loop of the vsnotify package.

External collaborators (the /proc command-line lookup GetCmdline, the
effective-uid username lookup GetUserByPID, the os/user database lookup
GetUserInfo, os.Stat) are modelled as oracle parameters of type
Nat -> Option String (or String -> Option UserInfo): a none result is the
error case of the Go call, a some result is a successful lookup.

Go maps are modelled as association lists with unique keys via mfind,
minsert and mdelete; Go time.Time values (built by time.Unix from the
packed TV field) are modelled as microseconds since the epoch (an Int),
so that Time.After is the strict order on Int; a Go net.IP produced by
the IPv4 helper is either empty (none) or carries the 32-bit address word
(some word).
-/

set_option autoImplicit false
set_option maxRecDepth 8192

namespace Gousers

/-! ### Association-list model of Go maps -/

/-- Lookup in an association list: the Go map read m[k]. -/
def mfind {K V : Type} [DecidableEq K] (k : K) : List (K × V) → Option V
  | [] => none
  | (k', v) :: rest => if k' = k then some v else mfind k rest

/-- Remove a key: the Go built-in delete(m, k). -/
def mdelete {K V : Type} [DecidableEq K] (k : K) : List (K × V) → List (K × V)
  | [] => []
  | (k', v) :: rest =>
    if k' = k then mdelete k rest else (k', v) :: mdelete k rest

/-- Overwrite a key: the Go map write m[k] = v. -/
def minsert {K V : Type} [DecidableEq K] (k : K) (v : V)
    (m : List (K × V)) : List (K × V) :=
  (k, v) :: mdelete k m

/-! ### Strings and the classification regular expressions -/

/-- Does the pattern occur at the head of the character list. -/
def charsStart : List Char → List Char → Bool
  | [], _ => true
  | _ :: _, [] => false
  | p :: ps, c :: cs => p = c && charsStart ps cs

/-- Does the pattern occur anywhere in the character list. -/
def charsHold (pat : List Char) : List Char → Bool
  | [] => charsStart pat []
  | c :: cs => charsStart pat (c :: cs) || charsHold pat cs

/-- Unanchored regexp match of a literal pattern, as
regexp.MustCompile(pat).MatchString(s) behaves when pat has no
metacharacters (the XRDP_CMD pattern is the literal xrdp-sesman). -/
def strHasSub (s pat : String) : Bool := charsHold pat.data s.data

/-- The anchored regexp from users.go: MustCompile of colon digits
anchored at both ends, the X11 display marker such as :0 or :10. -/
def isXDisplay (s : String) : Bool :=
  match s.data with
  | [] => false
  | c :: rest => c = ':' && !rest.isEmpty && rest.all fun d => d.isDigit

/-- const XRDP_CMD from const.go. -/
def XRDP_CMD : String := "xrdp-sesman"

/-! ### Login types (api.go constants, iota 0..4) -/

def UNKNOWN : Nat := 0
def REMOTE : Nat := 1
def REMOTE_X : Nat := 2
def LOCAL : Nat := 3
def LOCAL_X : Nat := 4

/-! ### Sessions -/

/-- The User structure of users.go: one reconstructed session.
The ip field is none exactly when the Go net.IP is empty. -/
structure User where
  name : String
  pid : Nat
  tty : String
  host : String
  ip : Option Nat
  sid : Int
  id : String
  time : Int
  deriving DecidableEq, Repr

/-- GetUserType from pkg/utmp/users.go: the pure classifier revision.
It reads only the host, id, tty and ip fields. -/
def GetUserType (u : User) : Nat :=
  if isXDisplay u.host || isXDisplay u.id || isXDisplay u.tty then
    if u.ip = none then LOCAL_X else REMOTE_X
  else
    if u.ip = none ∧ u.host = "" then LOCAL else REMOTE

/-- The LoginType method of the User revision embedded with
utmp_test.go.  When an X display marker matches and the ip is empty it
refines LOCAL_X to REMOTE_X if the GetCmdline lookup of the session pid
succeeds and the command line matches XRDP_CMD; when the marker matches
and an ip IS present no branch assigns, so the initial UNKNOWN survives.
The cmdline oracle models GetCmdline: none is the error case. -/
def User.LoginType (cmdline : Nat → Option String) (u : User) : Nat :=
  if isXDisplay u.host || isXDisplay u.id || isXDisplay u.tty then
    if u.ip = none then
      match cmdline u.pid with
      | some cmd => if strHasSub cmd XRDP_CMD then REMOTE_X else LOCAL_X
      | none => LOCAL_X
    else UNKNOWN
  else
    if u.ip = none ∧ u.host = "" then LOCAL else REMOTE

/-! ### The session tracker (GetUsers revision embedded with utmp_test.go) -/

/-- Record kinds from utmp.go (Values for Type field). -/
def BOOT_TIME : Int := 2
def USER_PROCESS : Int := 7
def DEAD_PROCESS : Int := 8

/-- The decoded view of one Go Utmp record: the raw struct fields after
the conversions the tracker loop applies (Str on Line, ID, User and
Host, PID on the little-endian pid bytes, Time on TV as microseconds,
IPv4 on AddrV6).  type is the int16 Type tag widened to Int. -/
structure URec where
  type : Int
  pid : Nat
  line : String
  id : String
  user : String
  host : String
  sid : Int
  time : Int
  ip : Option Nat
  deriving DecidableEq, Repr

/-- Primary key of the session table: the userTTY / UserTTY struct. -/
structure UserTTY where
  user : String
  tty : String
  deriving DecidableEq, Repr

/-- Key of the first correlation index: the TTYPID struct. -/
structure TTYPID where
  tty : String
  pid : Nat
  deriving DecidableEq, Repr

/-- Key of the second correlation index: the TTYID struct. -/
structure TTYID where
  tty : String
  id : String
  deriving DecidableEq, Repr

/-- The three maps the GetUsers loop maintains: base, pbase, ibase. -/
structure TrackSt where
  base : List (UserTTY × User)
  pbase : List (TTYPID × User)
  ibase : List (TTYID × User)
  deriving DecidableEq, Repr

/-- The state the loop starts from and the state a boot record resets
to: all three maps freshly made empty. -/
def initSt : TrackSt := ⟨[], [], []⟩

/-- The session value nu built for a USER_PROCESS record, including the
effective-uid renaming: when the new session classifies as LOCAL and
useEUID is set, a successful GetUserByPID lookup (oracle euidName)
overwrites nu.Name; on lookup error the name is kept. -/
def mkUser (cmdline euidName : Nat → Option String) (useEUID : Bool)
    (r : URec) : User :=
  let nu : User := ⟨r.user, r.pid, r.line, r.host, r.ip, r.sid, r.id, r.time⟩
  if nu.LoginType cmdline = LOCAL ∧ useEUID then
    match euidName r.pid with
    | some real => { nu with name := real }
    | none => nu
  else nu

/-- One iteration of the GetUsers record loop on an already decoded
record.  A BOOT_TIME record remakes all three maps empty; a
USER_PROCESS record inserts or (only on a strictly later timestamp)
replaces under the key (user, tty) and repopulates both indices; a
DEAD_PROCESS record with blank username resolves the username through
pbase by (tty, pid), falling back to ibase by (tty, id), then deletes
from all three maps; every other record kind is ignored. -/
def step (cmdline euidName : Nat → Option String) (useEUID : Bool)
    (s : TrackSt) (r : URec) : TrackSt :=
  if r.type = BOOT_TIME then initSt
  else if r.type = USER_PROCESS ∨ r.type = DEAD_PROCESS then
    let ut : UserTTY := ⟨r.user, r.line⟩
    let tp : TTYPID := ⟨r.line, r.pid⟩
    let ti : TTYID := ⟨r.line, r.id⟩
    if r.type = USER_PROCESS then
      let nu := mkUser cmdline euidName useEUID r
      match mfind ut s.base with
      | some p =>
        if p.time < nu.time then
          ⟨minsert ut nu s.base, minsert tp nu s.pbase, minsert ti nu s.ibase⟩
        else s
      | none =>
        ⟨minsert ut nu s.base, minsert tp nu s.pbase, minsert ti nu s.ibase⟩
    else
      let key : UserTTY :=
        if r.user = "" then
          match mfind tp s.pbase with
          | some w => ⟨w.name, r.line⟩
          | none =>
            match mfind ti s.ibase with
            | some w => ⟨w.name, r.line⟩
            | none => ut
        else ut
      ⟨mdelete key s.base, mdelete tp s.pbase, mdelete ti s.ibase⟩
  else s

/-- The whole record loop of GetUsers over an already decoded record
stream, starting from the freshly made maps. -/
def processAll (cmdline euidName : Nat → Option String) (useEUID : Bool)
    (rs : List URec) : TrackSt :=
  rs.foldl (step cmdline euidName useEUID) initSt

/-! ### The record decoder (utmp.go) and the byte-level read loop -/

/-- Size in bytes of the Utmp struct on the 64-bit layout: 2 (Type)
+ 2 (padding) + 4 (PID) + 32 (Line) + 4 (ID) + 32 (User) + 256 (Host)
+ 4 (Exit) + 4 (Session) + 8 (TV) + 16 (AddrV6) + 20 (reserved). -/
def recSize : Nat := 384

/-- Little-endian 16-bit word from two bytes. -/
def le16 (b0 b1 : Nat) : Nat := b0 % 256 + 256 * (b1 % 256)

/-- Little-endian 32-bit word from four bytes. -/
def le32 (b0 b1 b2 b3 : Nat) : Nat :=
  b0 % 256 + 256 * (b1 % 256) + 65536 * (b2 % 256) + 16777216 * (b3 % 256)

/-- Reinterpret a 16-bit word as a signed int16. -/
def sInt16 (n : Nat) : Int :=
  if n % 65536 < 32768 then (n % 65536 : Int) else (n % 65536 : Int) - 65536

/-- Reinterpret a 32-bit word as a signed int32. -/
def sInt32 (n : Nat) : Int :=
  if n % 4294967296 < 2147483648 then (n % 4294967296 : Int)
  else (n % 4294967296 : Int) - 4294967296

/-- The Str conversion of utmp.go: bytes of a fixed-width field up to
the first zero byte or the field boundary; each byte becomes one
character. -/
def strBytes : List Nat → List Char
  | [] => []
  | b :: rest =>
    if b % 256 = 0 then [] else Char.ofNat (b % 256) :: strBytes rest

/-- Str on a field given as a byte list. -/
def strOf (bs : List Nat) : String := ⟨strBytes bs⟩

/-- Byte at an offset of the record (the record always has recSize
bytes when this is used). -/
def byteAt (bs : List Nat) (i : Nat) : Nat := bs.getD i 0

/-- binary.Read of one Utmp value from exactly recSize bytes, composed
with the conversions of the tracker loop: field offsets are Type at 0,
PID at 4, Line at 8, ID at 40, User at 44, Host at 76, Session at 336,
TV at 340 (seconds then microseconds), AddrV6 at 348 (first word only,
zero meaning no address), matching the struct layout of utmp.go. -/
def decodeRec (bs : List Nat) : URec :=
  { type := sInt16 (le16 (byteAt bs 0) (byteAt bs 1))
    pid := le32 (byteAt bs 4) (byteAt bs 5) (byteAt bs 6) (byteAt bs 7)
    line := strOf ((bs.drop 8).take 32)
    id := strOf ((bs.drop 40).take 4)
    user := strOf ((bs.drop 44).take 32)
    host := strOf ((bs.drop 76).take 256)
    sid := sInt32 (le32 (byteAt bs 336) (byteAt bs 337) (byteAt bs 338)
      (byteAt bs 339))
    time := sInt32 (le32 (byteAt bs 340) (byteAt bs 341) (byteAt bs 342)
      (byteAt bs 343)) * 1000000 +
      sInt32 (le32 (byteAt bs 344) (byteAt bs 345) (byteAt bs 346)
        (byteAt bs 347))
    ip :=
      let a := le32 (byteAt bs 348) (byteAt bs 349) (byteAt bs 350)
        (byteAt bs 351)
      if a = 0 then none else some a }

/-- The two error values binary.Read can produce on an in-memory byte
stream: io.EOF when no byte remains, io.ErrUnexpectedEOF when some but
fewer than recSize bytes remain. -/
inductive RErr where
  | eof
  | unexpectedEof
  deriving DecidableEq, Repr

/-- Read of one record from the remaining byte stream, as binary.Read
behaves: a full record is decoded and consumed, an empty stream is
io.EOF, a short stream is io.ErrUnexpectedEOF. -/
def readRec (bs : List Nat) : Except RErr (URec × List Nat) :=
  if bs.length = 0 then .error .eof
  else if bs.length < recSize then .error .unexpectedEof
  else .ok (decodeRec (bs.take recSize), bs.drop recSize)

/-- The read loop of GetUsers at the byte level: read one record,
process it, and continue; on a read error the loop breaks and the
accumulated state is the result when the error is io.EOF or
io.ErrUnexpectedEOF (the errors.Is checks of the source), and any other
error would surface to the caller. -/
def getUsersLoop (cmdline euidName : Nat → Option String) (useEUID : Bool)
    (bs : List Nat) (s : TrackSt) : Except RErr TrackSt :=
  match h : readRec bs with
  | .error e =>
    if e = RErr.eof ∨ e = RErr.unexpectedEof then .ok s else .error e
  | .ok (r, rest) =>
    getUsersLoop cmdline euidName useEUID rest
      (step cmdline euidName useEUID s r)
termination_by bs.length
decreasing_by
  unfold readRec at h
  split at h
  · exact absurd h (by simp)
  · split at h
    · exact absurd h (by simp)
    · rename_i h0 hlt
      have hrest : rest = bs.drop recSize := by
        cases h
        rfl
      subst hrest
      simp only [List.length_drop, recSize] at *
      omega

/-- One-shot reconstruction from the full byte content of the file,
as GetUsers performs it starting from the empty maps. -/
def getUsersBytes (cmdline euidName : Nat → Option String)
    (useEUID : Bool) (bs : List Nat) : Except RErr TrackSt :=
  getUsersLoop cmdline euidName useEUID bs initSt

/-! ### The statistics aggregator

GetLoginStat (revision embedded with utmp_test.go) and GetUsersStat
(pkg/utmp/users.go) share the same fold over the session list and
differ only in the classifier they call and in how the winning session
is enriched at the end, so the fold is written once, parametrised by
the classifier. -/

/-- Increment of a Go count map entry: m[k]++ (a missing key reads as
zero). -/
def bump (k : String) (m : List (String × Nat)) : List (String × Nat) :=
  match mfind k m with
  | some n => minsert k (n + 1) m
  | none => minsert k 1 m

/-- The local accumulator variables of the aggregation loop: the six
count maps, the two root flags, and the held active session together
with its login type. -/
structure StatAcc where
  total : List (String × Nat)
  localX : List (String × Nat)
  localCnt : List (String × Nat)
  remoteX : List (String × Nat)
  remoteCnt : List (String × Nat)
  unknownCnt : List (String × Nat)
  localRoot : Bool
  remoteRoot : Bool
  user : Option User
  utype : Nat
  deriving Repr

/-- The accumulator at loop entry: empty maps, false flags, nil active
user of type UNKNOWN. -/
def initAcc : StatAcc :=
  ⟨[], [], [], [], [], [], false, false, none, UNKNOWN⟩

/-- One iteration of the aggregation loop: count the username, bucket
by classified type with the root special case, and update the held
active session.  A root session becomes active only when no session is
held yet or the held one is named root; a non-root session becomes
active when none is held or the held type ordinal is at most its own. -/
def statStep (classify : User → Nat) (a : StatAcc) (u : User) : StatAcc :=
  let a := { a with total := bump u.name a.total }
  let t := classify u
  if u.name = "root" then
    let a :=
      if t = LOCAL_X ∨ t = LOCAL then { a with localRoot := true }
      else if t = REMOTE_X ∨ t = REMOTE then { a with remoteRoot := true }
      else { a with localRoot := true, unknownCnt := bump u.name a.unknownCnt }
    match a.user with
    | none => { a with user := some u, utype := t }
    | some w =>
      if w.name = "root" then { a with user := some u, utype := t } else a
  else
    let a :=
      if t = LOCAL_X then { a with localX := bump u.name a.localX }
      else if t = LOCAL then { a with localCnt := bump u.name a.localCnt }
      else if t = REMOTE_X then { a with remoteX := bump u.name a.remoteX }
      else if t = REMOTE then { a with remoteCnt := bump u.name a.remoteCnt }
      else { a with unknownCnt := bump u.name a.unknownCnt }
    match a.user with
    | none => { a with user := some u, utype := t }
    | some _ =>
      if a.utype ≤ t then { a with user := some u, utype := t } else a

/-- The whole aggregation loop over the session list. -/
def statFold (classify : User → Nat) (users : List User) : StatAcc :=
  users.foldl (statStep classify) initAcc

/-- UserInfo from api.go: the enrichment delivered by the os/user
lookup collaborator. -/
structure UserInfo where
  name : String
  uid : String
  gid : String
  displayName : String
  homeDir : String
  groups : String
  deriving DecidableEq, Repr

/-- UserLogin from api.go (UserLogon in users.go): type, last login
time and login count of one username. -/
structure UserLogin where
  type : Nat
  time : Int
  logons : Nat
  deriving DecidableEq, Repr

/-- LoginInfo from api.go: UserInfo plus UserLogin. -/
structure LoginInfo where
  info : UserInfo
  login : UserLogin
  deriving DecidableEq, Repr

/-- GetUserLogin of the Users revision (GetUserLogon in users.go, same
body): scan the session list for the username, counting logons and
keeping the maximal classified type with its time. -/
def GetUserLogin (classify : User → Nat) (users : List User)
    (name : String) : UserLogin :=
  users.foldl
    (fun ul u =>
      if u.name = name then
        let ul := { ul with logons := ul.logons + 1 }
        let t := classify u
        if ul.type < t then { ul with type := t, time := u.time } else ul
      else ul)
    ⟨UNKNOWN, 0, 0⟩

/-- GetLoginInfo: the GetUserInfo collaborator lookup (oracle lk, none
meaning the error case, on which the Go function returns nil) combined
with GetUserLogin. -/
def GetLoginInfo (classify : User → Nat) (lk : String → Option UserInfo)
    (users : List User) (name : String) : Option LoginInfo :=
  match lk name with
  | none => none
  | some info => some ⟨info, GetUserLogin classify users name⟩

/-- LoginStat from api.go. -/
structure LoginStat where
  Total : Nat
  LocalX : Nat
  Local : Nat
  RemoteX : Nat
  Remote : Nat
  Unknown : Nat
  LocalRoot : Bool
  RemoteRoot : Bool
  Active : Option LoginInfo
  deriving DecidableEq, Repr

/-- GetLoginStat of the Users revision embedded with utmp_test.go: run
the fold with the LoginType classifier, then enrich the winning
session only under the explicit nil guard (if user is not nil). -/
def GetLoginStat (cmdline : Nat → Option String)
    (lk : String → Option UserInfo) (users : List User) : LoginStat :=
  let a := statFold (User.LoginType cmdline) users
  let active : Option LoginInfo :=
    match a.user with
    | none => none
    | some w => GetLoginInfo (User.LoginType cmdline) lk users w.name
  ⟨a.total.length, a.localX.length, a.localCnt.length, a.remoteX.length,
    a.remoteCnt.length, a.unknownCnt.length, a.localRoot, a.remoteRoot,
    active⟩

/-- UserFull from users.go: UserInfo plus UserLogon. -/
structure UserFull where
  info : UserInfo
  logon : UserLogin
  deriving DecidableEq, Repr

/-- GetUserFull from users.go: GetUserInfo (oracle lk) plus
GetUserLogon; the error of the lookup makes the result nil. -/
def GetUserFull (lk : String → Option UserInfo) (users : List User)
    (name : String) : Option UserFull :=
  match lk name with
  | none => none
  | some info => some ⟨info, GetUserLogin GetUserType users name⟩

/-- UsersStat from users.go. -/
structure UsersStat where
  Total : Nat
  LocalX : Nat
  Local : Nat
  RemoteX : Nat
  Remote : Nat
  Unknown : Nat
  LocalRoot : Bool
  RemoteRoot : Bool
  User : Option UserFull
  deriving DecidableEq, Repr

/-- GetUsersStat from pkg/utmp/users.go: run the fold with the
GetUserType classifier, then evaluate GetUserFull(users, user.Name)
with NO nil guard on user.  When the session list is empty the loop
never assigns user, the field access user.Name dereferences a nil
pointer and the Go program panics: the panic is modelled as the none
result. -/
def GetUsersStat (lk : String → Option UserInfo)
    (users : List User) : Option UsersStat :=
  let a := statFold GetUserType users
  match a.user with
  | none => none
  | some w =>
    some ⟨a.total.length, a.localX.length, a.localCnt.length,
      a.remoteX.length, a.remoteCnt.length, a.unknownCnt.length,
      a.localRoot, a.remoteRoot, GetUserFull lk users w.name⟩

/-! ### The vsnotify polling loop (vsnotify.go, function New)

The goroutine body is a sequential loop; each iteration stats the
file and, when the stat succeeds, optionally publishes an update and
then waits for the tick or the cancellation signal.  One iteration is
modelled as a step function on the loop state consuming the pair of
outcomes the iteration observes: whether os.Stat failed, and otherwise
the FileInfo it returned together with whether the done channel was
readable at the select. -/

/-- The part of os.FileInfo the loop compares: Size and ModTime. -/
structure FileInfo where
  size : Int
  modTime : Int
  deriving DecidableEq, Repr

/-- The two control states of the notifier loop: still polling, or
terminated (the for loop exited and the update channel was closed). -/
inductive LoopStatus where
  | polling
  | closed
  deriving DecidableEq, Repr

/-- The loop state: control state plus the pstat variable holding the
FileInfo of the previous iteration (nil on the first iteration). -/
structure VsState where
  status : LoopStatus
  pstat : Option FileInfo
  deriving DecidableEq, Repr

/-- What one iteration of the loop observes. -/
inductive PollIn where
  | statFail
  | statOk (fi : FileInfo) (cancelled : Bool)
  deriving DecidableEq, Repr

/-- One iteration of the vsnotify loop, returning the next state and
the update published on the channel (the modification time), if any.
On a stat failure the source logs the error and breaks out of the
loop, so the loop terminates; on success it publishes when size or
modification time differ from pstat, then stops only if the done
channel fired; the post statement of the for loop copies stat into
pstat. -/
def vsStep (s : VsState) (i : PollIn) : VsState × Option Int :=
  match s.status with
  | .closed => (s, none)
  | .polling =>
    match i with
    | .statFail => (⟨.closed, s.pstat⟩, none)
    | .statOk fi cancelled =>
      let emit : Option Int :=
        match s.pstat with
        | some ps =>
          if fi.size ≠ ps.size ∨ fi.modTime ≠ ps.modTime
          then some fi.modTime else none
        | none => none
      (⟨if cancelled then .closed else .polling, some fi⟩, emit)

/-! ### Fixed oracles and concrete sessions and records used below -/

/-- The always-failing external lookup (every collaborator call
errors). -/
def noLookup : Nat → Option String := fun _ => none

/-- A command-line environment in which process 100 runs the XRDP
session manager and every other lookup fails. -/
def rdpAt100 : Nat → Option String :=
  fun p => if p = 100 then some "xrdp-sesman" else none

/-- A session carrying the X display marker in its host field together
with a remote IPv4 address. -/
def xWithAddr : User := ⟨"alice", 100, "pts/1", ":0", some 16777343, 0, "", 0⟩

/-- A local text session of a regular user. -/
def bobLocal : User := ⟨"bob", 11, "tty1", "", none, 0, "", 1⟩

/-- A local text session of root, later in time than bobLocal. -/
def rootLocal : User := ⟨"root", 12, "tty2", "", none, 0, "", 2⟩

/-- A login record for alice on tty1 with pid 100, id 1, time 1. -/
def recLoginA : URec := ⟨7, 100, "tty1", "1", "alice", "", 0, 1, none⟩

/-- A later login record for alice on tty1 with pid 200, id 2, time 2. -/
def recLoginB : URec := ⟨7, 200, "tty1", "2", "alice", "", 0, 2, none⟩

/-- The session recLoginA inserts. -/
def sessA : User := ⟨"alice", 100, "tty1", "", none, 0, "1", 1⟩

/-- The session recLoginB inserts. -/
def sessB : User := ⟨"alice", 200, "tty1", "", none, 0, "2", 2⟩

/-- A boot-time record. -/
def recBoot : URec := ⟨2, 0, "", "", "", "", 0, 5, none⟩

/-! ### Association-list lemmas -/

theorem mfind_mdelete_self {K V : Type} [DecidableEq K] (k : K)
    (m : List (K × V)) : mfind k (mdelete k m) = none := by
  induction m with
  | nil => rfl
  | cons kv rest ih =>
    obtain ⟨k', v⟩ := kv
    by_cases h : k' = k
    · simp [mdelete, h, ih]
    · simp [mdelete, h, mfind, ih]

theorem mfind_mdelete_ne {K V : Type} [DecidableEq K] {k k' : K}
    (m : List (K × V)) (h : k ≠ k') : mfind k (mdelete k' m) = mfind k m := by
  have hks : ¬k' = k := fun hk => h hk.symm
  induction m with
  | nil => rfl
  | cons kv rest ih =>
    obtain ⟨k0, v⟩ := kv
    by_cases h0 : k0 = k'
    · subst h0
      simp [mdelete, mfind, hks, ih]
    · simp [mdelete, mfind, h0, ih]

theorem mfind_minsert_self {K V : Type} [DecidableEq K] (k : K) (v : V)
    (m : List (K × V)) : mfind k (minsert k v m) = some v := by
  simp [minsert, mfind]

theorem mfind_minsert_ne {K V : Type} [DecidableEq K] {k k' : K} (v : V)
    (m : List (K × V)) (h : k ≠ k') :
    mfind k (minsert k' v m) = mfind k m := by
  have : ¬k' = k := fun hk => h hk.symm
  simp [minsert, mfind, this, mfind_mdelete_ne m h]

/-! ### C1: X display marker with a present address -/

/-- C1, counterexample.  The claim reads: for every session whose
host, terminal-id, or terminal field matches the X11 display marker
and whose remote IPv4 address is present, classify returns the
remote-graphical (remote_x) login type.  On the LoginType revision the
claim is false: for the session xWithAddr (host is the marker :0 and
an address is present) no branch assigns a type, so the initial
UNKNOWN survives and the result is not REMOTE_X. -/
theorem c1_counterexample :
    User.LoginType noLookup xWithAddr = UNKNOWN ∧
    User.LoginType noLookup xWithAddr ≠ REMOTE_X := by
  decide

/-- C1, amended.  For every session whose host, id or tty matches the
X display marker and whose address is present, the GetUserType
revision of the classifier returns REMOTE_X as the claim states, while
the LoginType revision leaves the type UNKNOWN under every
command-line environment. -/
theorem c1_amended (u : User)
    (hx : (isXDisplay u.host || isXDisplay u.id || isXDisplay u.tty) = true)
    (hip : u.ip ≠ none) :
    GetUserType u = REMOTE_X ∧
    ∀ cmdline, User.LoginType cmdline u = UNKNOWN := by
  constructor
  · simp [GetUserType, hx, hip]
  · intro cmdline
    simp [User.LoginType, hx, hip]

/-- C1, witness for the amended theorem at the session xWithAddr. -/
theorem c1_witness :
    ((isXDisplay xWithAddr.host || isXDisplay xWithAddr.id ||
        isXDisplay xWithAddr.tty) = true) ∧
    xWithAddr.ip ≠ none ∧
    (GetUserType xWithAddr = REMOTE_X ∧
      ∀ cmdline, User.LoginType cmdline xWithAddr = UNKNOWN) :=
  ⟨by decide, by decide, c1_amended xWithAddr (by decide) (by decide)⟩

/-! ### C9: determinism of the classifier in the four fields -/

/-- C9, counterexample.  The claim reads: two sessions that agree on
host, id, terminal and remote address, regardless of their other
fields such as process id, classify identically.  On the LoginType
revision this is false: under the command-line environment rdpAt100,
two sessions differing only in pid (100 against 200) classify as
REMOTE_X and LOCAL_X respectively, because the XRDP refinement
consults the command line of the session pid. -/
theorem c9_counterexample :
    (⟨"alice", 100, "tty7", ":0", none, 0, "", 0⟩ : User).host =
      (⟨"alice", 200, "tty7", ":0", none, 0, "", 0⟩ : User).host ∧
    (⟨"alice", 100, "tty7", ":0", none, 0, "", 0⟩ : User).id =
      (⟨"alice", 200, "tty7", ":0", none, 0, "", 0⟩ : User).id ∧
    (⟨"alice", 100, "tty7", ":0", none, 0, "", 0⟩ : User).tty =
      (⟨"alice", 200, "tty7", ":0", none, 0, "", 0⟩ : User).tty ∧
    (⟨"alice", 100, "tty7", ":0", none, 0, "", 0⟩ : User).ip =
      (⟨"alice", 200, "tty7", ":0", none, 0, "", 0⟩ : User).ip ∧
    User.LoginType rdpAt100 ⟨"alice", 100, "tty7", ":0", none, 0, "", 0⟩ ≠
      User.LoginType rdpAt100 ⟨"alice", 200, "tty7", ":0", none, 0, "", 0⟩ := by
  decide

/-- C9, amended.  The GetUserType revision is a function of the four
fields alone: two sessions agreeing on host, id, tty and ip classify
identically.  The LoginType revision is deterministic only once the
pid (and the command-line environment) is also fixed. -/
theorem c9_amended (u v : User) (hh : u.host = v.host) (hi : u.id = v.id)
    (ht : u.tty = v.tty) (hp : u.ip = v.ip) :
    GetUserType u = GetUserType v ∧
    ∀ cmdline, u.pid = v.pid →
      User.LoginType cmdline u = User.LoginType cmdline v := by
  constructor
  · unfold GetUserType
    rw [hh, hi, ht, hp]
  · intro cmdline hpid
    unfold User.LoginType
    rw [hh, hi, ht, hp, hpid]

/-- C9, witness for the amended theorem: two local text sessions that
share all four fields and the pid. -/
theorem c9_witness :
    bobLocal.host = bobLocal.host ∧ bobLocal.id = bobLocal.id ∧
    bobLocal.tty = bobLocal.tty ∧ bobLocal.ip = bobLocal.ip ∧
    (GetUserType bobLocal = GetUserType bobLocal ∧
      ∀ cmdline, bobLocal.pid = bobLocal.pid →
        User.LoginType cmdline bobLocal = User.LoginType cmdline bobLocal) :=
  ⟨rfl, rfl, rfl, rfl, c9_amended bobLocal bobLocal rfl rfl rfl rfl⟩

/-! ### C8: the vsnotify loop on a stat failure -/

/-- C8, counterexample.  The claim reads: a failure to stat the
watched file during any poll cycle is treated as no change this cycle
and the notifier keeps running, never transitioning to the terminated
state because of a stat failure.  On the code this is false: from the
polling state a stat failure makes vsStep close the loop. -/
theorem c8_counterexample :
    (vsStep ⟨.polling, none⟩ .statFail).1.status = .closed ∧
    LoopStatus.closed ≠ LoopStatus.polling := by
  decide

/-- C8, amended.  From any polling state a stat failure terminates
the loop (the status becomes closed and nothing is published); a
successful stat without cancellation keeps the loop polling; explicit
cancellation also closes it. -/
theorem c8_amended (s : VsState) (h : s.status = .polling) :
    (vsStep s .statFail).1.status = .closed ∧
    (vsStep s .statFail).2 = none ∧
    (∀ fi, (vsStep s (.statOk fi false)).1.status = .polling) ∧
    (∀ fi, (vsStep s (.statOk fi true)).1.status = .closed) := by
  obtain ⟨st, p⟩ := s
  subst h
  refine ⟨rfl, rfl, fun fi => rfl, fun fi => rfl⟩

/-- C8, witness for the amended theorem at the initial loop state. -/
theorem c8_witness :
    (⟨.polling, none⟩ : VsState).status = .polling ∧
    ((vsStep ⟨.polling, none⟩ .statFail).1.status = .closed ∧
      (vsStep ⟨.polling, none⟩ .statFail).2 = none ∧
      (∀ fi, (vsStep ⟨.polling, none⟩ (.statOk fi false)).1.status =
        .polling) ∧
      (∀ fi, (vsStep ⟨.polling, none⟩ (.statOk fi true)).1.status =
        .closed)) :=
  ⟨rfl, c8_amended ⟨.polling, none⟩ rfl⟩

/-! ### C10: the aggregator on the empty session list -/

/-- C10.  The claim reads: the statistics aggregator is total over
every session list including the empty one, every dereference of the
active-session pointer being guarded by a nil check.  The GetLoginStat
revision satisfies it, returning all-zero counts, false flags and no
active user on the empty list; but GetUsersStat of pkg/utmp/users.go
evaluates user.Name without a nil guard, so on the empty list it
dereferences a nil pointer and panics (modelled as the none result):
the code contradicts the claim at the empty list. -/
theorem c10_theorem :
    (∀ lk, GetUsersStat lk [] = none) ∧
    ∀ cmdline lk,
      GetLoginStat cmdline lk [] =
        ⟨0, 0, 0, 0, 0, 0, false, false, none⟩ := by
  exact ⟨fun lk => rfl, fun cmdline lk => rfl⟩

/-! ### C2: root preference in the active-session selection -/

/-- C2, counterexample.  The claim reads: whenever at least one root
session is present, the selected active session is a root session, any
root session immediately becoming active even if the held active is
non-root.  On the code this is false: feeding a local bob session
followed by a local root session, the root branch replaces the held
active only when it is nil or already root, so bob stays active. -/
theorem c2_counterexample :
    rootLocal.name = "root" ∧
    rootLocal ∈ [bobLocal, rootLocal] ∧
    (statFold (User.LoginType noLookup) [bobLocal, rootLocal]).user =
      some bobLocal ∧
    bobLocal.name ≠ "root" := by
  decide

/-- Helper for C2: one aggregation step never turns a held non-root
active session into a root one, under any classifier. -/
theorem statStep_user_nonroot (classify : User → Nat) (a : StatAcc)
    (u w : User) (hw : a.user = some w) (hroot : w.name ≠ "root") :
    ∃ w', (statStep classify a u).user = some w' ∧ w'.name ≠ "root" := by
  by_cases hu : u.name = "root"
  · refine ⟨w, ?_, hroot⟩
    simp [statStep, hu, hw, hroot, apply_ite StatAcc.user]
  · by_cases hle : a.utype ≤ classify u
    · refine ⟨u, ?_, hu⟩
      simp [statStep, hu, hw, hle, apply_ite StatAcc.user,
        apply_ite StatAcc.utype]
    · refine ⟨w, ?_, hroot⟩
      simp [statStep, hu, hw, hle, apply_ite StatAcc.user,
        apply_ite StatAcc.utype]

/-- C2, amended.  What the active-selection loop guarantees instead:
a root session becomes active only when no session is held yet or the
held active is itself root, so once the held active session is a
non-root one, the active stays non-root through the rest of the fold,
whatever sessions (root ones included) follow and under any
classifier.  With the counterexample list this leaves bob, not root,
selected. -/
theorem c2_amended (classify : User → Nat) (users : List User)
    (a : StatAcc) (w : User) (hw : a.user = some w)
    (hroot : w.name ≠ "root") :
    ∃ w', (users.foldl (statStep classify) a).user = some w' ∧
      w'.name ≠ "root" := by
  induction users generalizing a w with
  | nil => exact ⟨w, hw, hroot⟩
  | cons u rest ih =>
    obtain ⟨w', hw', hroot'⟩ := statStep_user_nonroot classify a u w hw hroot
    simp only [List.foldl_cons]
    exact ih (statStep classify a u) w' hw' hroot'

/-- C2, witness for the amended theorem: an accumulator holding bob as
active, fed the root session. -/
theorem c2_witness :
    (⟨[], [], [], [], [], [], false, false, some bobLocal, LOCAL⟩ :
      StatAcc).user = some bobLocal ∧
    bobLocal.name ≠ "root" ∧
    ∃ w', (([rootLocal]).foldl (statStep (User.LoginType noLookup))
        ⟨[], [], [], [], [], [], false, false, some bobLocal, LOCAL⟩).user =
      some w' ∧ w'.name ≠ "root" :=
  ⟨rfl, by decide,
    c2_amended (User.LoginType noLookup) [rootLocal] _ bobLocal rfl
      (by decide)⟩

/-! ### C3: the correspondence between the indices and the table -/

/-- C3, counterexample.  The claim reads: after processing any prefix
of the record stream, every entry present in either index corresponds
to the session stored in the primary table for its key, and no index
entry refers to a session that has been superseded or removed.  On the
code this is false: a later login for the same (user, tty) key under a
different pid and id repopulates the indices only under the NEW keys,
leaving the old (tty, pid) entry pointing at the superseded session,
while the primary table holds the replacement. -/
theorem c3_counterexample :
    mfind ⟨"tty1", 100⟩
      (processAll noLookup noLookup false [recLoginA, recLoginB]).pbase =
        some sessA ∧
    mfind ⟨"alice", "tty1"⟩
      (processAll noLookup noLookup false [recLoginA, recLoginB]).base =
        some sessB ∧
    sessA ≠ sessB := by
  decide

/-- C3, amended.  The part of the claim the code does keep: the three
maps are always updated together, never one without the others — every
record either leaves the whole state unchanged, or remakes all three
maps empty, or inserts one session into the table and both indices in
the same step, or deletes from the table and both indices in the same
step.  (A stale index entry for a superseded session may nevertheless
survive, as the counterexample shows.) -/
theorem c3_amended (cmdline euidName : Nat → Option String)
    (useEUID : Bool) (s : TrackSt) (r : URec) :
    step cmdline euidName useEUID s r = s ∨
    step cmdline euidName useEUID s r = initSt ∨
    (∃ ut tp ti nu,
      step cmdline euidName useEUID s r =
        ⟨minsert ut nu s.base, minsert tp nu s.pbase,
          minsert ti nu s.ibase⟩) ∨
    (∃ key tp ti,
      step cmdline euidName useEUID s r =
        ⟨mdelete key s.base, mdelete tp s.pbase, mdelete ti s.ibase⟩) := by
  unfold step
  split
  · exact Or.inr (Or.inl rfl)
  split
  · dsimp only
    split
    · split
      · split
        · exact Or.inr (Or.inr (Or.inl ⟨_, _, _, _, rfl⟩))
        · exact Or.inl rfl
      · exact Or.inr (Or.inr (Or.inl ⟨_, _, _, _, rfl⟩))
    · exact Or.inr (Or.inr (Or.inr ⟨_, _, _, rfl⟩))
  · exact Or.inl rfl

/-! ### C4: a boot-time record clears all prior state -/

/-- C4.  A boot-time record at any position resets the primary table
and both correlation indices, so the reconstruction of any stream is
the reconstruction of the part after the boot record alone: no session
created by records preceding the last boot-time record survives. -/
theorem c4_theorem (cmdline euidName : Nat → Option String)
    (useEUID : Bool) (pre : List URec) (r : URec)
    (hb : r.type = BOOT_TIME) (post : List URec) :
    processAll cmdline euidName useEUID (pre ++ r :: post) =
      processAll cmdline euidName useEUID post := by
  unfold processAll
  rw [List.foldl_append, List.foldl_cons]
  have hstep : step cmdline euidName useEUID
      (pre.foldl (step cmdline euidName useEUID) initSt) r = initSt := by
    unfold step
    rw [if_pos hb]
  rw [hstep]

/-- C4, witness: a login, then a boot record, then another login. -/
theorem c4_witness :
    recBoot.type = BOOT_TIME ∧
    processAll noLookup noLookup false ([recLoginA] ++ recBoot :: [recLoginB])
      = processAll noLookup noLookup false [recLoginB] :=
  ⟨rfl, c4_theorem noLookup noLookup false [recLoginA] recBoot rfl
    [recLoginB]⟩

/-! ### C5: resolution of anonymous dead-process records -/

/-- C5.  For a dead-process record with blank username, the tracker
resolves the session to close through the (tty, pid) index first: when
that lookup yields a session S, the key removed from the primary table
is (S.name, tty) — whatever the (tty, id) index holds — S's entry
disappears from the table and every other key keeps its session, so
the logout attributes to the session opened with the same (tty, pid)
even when other sessions used the same terminal; only when the
(tty, pid) lookup fails does the (tty, id) index determine the
resolved name. -/
theorem c5_theorem (cmdline euidName : Nat → Option String)
    (useEUID : Bool) (s : TrackSt) (r : URec)
    (h8 : r.type = DEAD_PROCESS) (hu : r.user = "") :
    (∀ S, mfind (⟨r.line, r.pid⟩ : TTYPID) s.pbase = some S →
      (step cmdline euidName useEUID s r).base =
        mdelete ⟨S.name, r.line⟩ s.base ∧
      mfind (⟨S.name, r.line⟩ : UserTTY)
        (step cmdline euidName useEUID s r).base = none ∧
      ∀ k, k ≠ (⟨S.name, r.line⟩ : UserTTY) →
        mfind k (step cmdline euidName useEUID s r).base =
          mfind k s.base) ∧
    (mfind (⟨r.line, r.pid⟩ : TTYPID) s.pbase = none →
      ∀ S, mfind (⟨r.line, r.id⟩ : TTYID) s.ibase = some S →
        (step cmdline euidName useEUID s r).base =
          mdelete ⟨S.name, r.line⟩ s.base) := by
  have h2 : ¬r.type = BOOT_TIME := by
    rw [h8]
    decide
  have h7 : ¬r.type = USER_PROCESS := by
    rw [h8]
    decide
  constructor
  · intro S hS
    have hstep : (step cmdline euidName useEUID s r).base =
        mdelete ⟨S.name, r.line⟩ s.base := by
      simp [step, h2, h7, h8, hu, hS, BOOT_TIME, USER_PROCESS, DEAD_PROCESS]
    refine ⟨hstep, ?_, ?_⟩
    · rw [hstep]
      exact mfind_mdelete_self _ _
    · intro k hk
      rw [hstep]
      exact mfind_mdelete_ne _ hk
  · intro hp S hS
    simp [step, h2, h7, h8, hu, hp, hS, BOOT_TIME, USER_PROCESS,
      DEAD_PROCESS]

/-- C5, witness: a state holding alice's session under (tty1, 100) in
the pid index while the id index holds a decoy under the same
terminal, hit by an anonymous dead record for (tty1, 100). -/
theorem c5_witness :
    (⟨8, 100, "tty1", "9", "", "", 0, 3, none⟩ : URec).type = DEAD_PROCESS ∧
    (⟨8, 100, "tty1", "9", "", "", 0, 3, none⟩ : URec).user = "" ∧
    ((∀ S, mfind (⟨"tty1", 100⟩ : TTYPID)
        (⟨[(⟨"alice", "tty1"⟩, sessA)], [(⟨"tty1", 100⟩, sessA)],
          [(⟨"tty1", "9"⟩, sessB)]⟩ : TrackSt).pbase = some S →
      (step noLookup noLookup false
        ⟨[(⟨"alice", "tty1"⟩, sessA)], [(⟨"tty1", 100⟩, sessA)],
          [(⟨"tty1", "9"⟩, sessB)]⟩
        ⟨8, 100, "tty1", "9", "", "", 0, 3, none⟩).base =
        mdelete ⟨S.name, "tty1"⟩ [(⟨"alice", "tty1"⟩, sessA)] ∧
      mfind (⟨S.name, "tty1"⟩ : UserTTY)
        (step noLookup noLookup false
          ⟨[(⟨"alice", "tty1"⟩, sessA)], [(⟨"tty1", 100⟩, sessA)],
            [(⟨"tty1", "9"⟩, sessB)]⟩
          ⟨8, 100, "tty1", "9", "", "", 0, 3, none⟩).base = none ∧
      ∀ k, k ≠ (⟨S.name, "tty1"⟩ : UserTTY) →
        mfind k (step noLookup noLookup false
          ⟨[(⟨"alice", "tty1"⟩, sessA)], [(⟨"tty1", 100⟩, sessA)],
            [(⟨"tty1", "9"⟩, sessB)]⟩
          ⟨8, 100, "tty1", "9", "", "", 0, 3, none⟩).base =
          mfind k [(⟨"alice", "tty1"⟩, sessA)]) ∧
    (mfind (⟨"tty1", 100⟩ : TTYPID)
        [((⟨"tty1", 100⟩ : TTYPID), sessA)] = none →
      ∀ S, mfind (⟨"tty1", "9"⟩ : TTYID) [(⟨"tty1", "9"⟩, sessB)] = some S →
        (step noLookup noLookup false
          ⟨[(⟨"alice", "tty1"⟩, sessA)], [(⟨"tty1", 100⟩, sessA)],
            [(⟨"tty1", "9"⟩, sessB)]⟩
          ⟨8, 100, "tty1", "9", "", "", 0, 3, none⟩).base =
          mdelete ⟨S.name, "tty1"⟩ [(⟨"alice", "tty1"⟩, sessA)])) :=
  ⟨rfl, rfl,
    c5_theorem noLookup noLookup false
      ⟨[(⟨"alice", "tty1"⟩, sessA)], [(⟨"tty1", 100⟩, sessA)],
        [(⟨"tty1", "9"⟩, sessB)]⟩
      ⟨8, 100, "tty1", "9", "", "", 0, 3, none⟩ rfl rfl⟩

/-! ### C6: strictly-later replacement of a live session -/

/-- Helper for C6: the effective-uid renaming never changes the login
timestamp of the built session. -/
theorem mkUser_time (cmdline euidName : Nat → Option String)
    (useEUID : Bool) (r : URec) :
    (mkUser cmdline euidName useEUID r).time = r.time := by
  unfold mkUser
  dsimp only
  split
  · cases euidName r.pid <;> rfl
  · rfl

/-- C6.  For a user-process record whose (username, terminal) key
already holds a live session p, the step replaces the stored session
(rewriting the table and both indices with the new session) exactly
when the record's timestamp is strictly after p's; with an equal or
earlier timestamp the whole state is unchanged, so re-delivery of a
duplicate login record is idempotent. -/
theorem c6_theorem (cmdline euidName : Nat → Option String)
    (useEUID : Bool) (s : TrackSt) (r : URec) (p : User)
    (h7 : r.type = USER_PROCESS)
    (hp : mfind (⟨r.user, r.line⟩ : UserTTY) s.base = some p) :
    (p.time < r.time →
      step cmdline euidName useEUID s r =
        ⟨minsert ⟨r.user, r.line⟩ (mkUser cmdline euidName useEUID r) s.base,
         minsert ⟨r.line, r.pid⟩ (mkUser cmdline euidName useEUID r) s.pbase,
         minsert ⟨r.line, r.id⟩ (mkUser cmdline euidName useEUID r)
           s.ibase⟩) ∧
    (¬p.time < r.time → step cmdline euidName useEUID s r = s) := by
  have h2 : ¬r.type = BOOT_TIME := by
    rw [h7]
    decide
  have h8 : ¬r.type = DEAD_PROCESS := by
    rw [h7]
    decide
  constructor
  · intro hlt
    simp [step, h2, h7, h8, hp, mkUser_time, hlt, BOOT_TIME, USER_PROCESS,
      DEAD_PROCESS]
  · intro hge
    simp [step, h2, h7, h8, hp, mkUser_time, hge, BOOT_TIME, USER_PROCESS,
      DEAD_PROCESS]

/-- C6, witness: re-delivery of alice's login record with the same
timestamp as the stored session leaves the state unchanged, while the
later record recLoginB replaces it. -/
theorem c6_witness :
    recLoginA.type = USER_PROCESS ∧
    mfind (⟨recLoginA.user, recLoginA.line⟩ : UserTTY)
      (processAll noLookup noLookup false [recLoginA]).base = some sessA ∧
    ((sessA.time < recLoginA.time →
      step noLookup noLookup false
        (processAll noLookup noLookup false [recLoginA]) recLoginA =
        ⟨minsert ⟨recLoginA.user, recLoginA.line⟩
            (mkUser noLookup noLookup false recLoginA)
            (processAll noLookup noLookup false [recLoginA]).base,
          minsert ⟨recLoginA.line, recLoginA.pid⟩
            (mkUser noLookup noLookup false recLoginA)
            (processAll noLookup noLookup false [recLoginA]).pbase,
          minsert ⟨recLoginA.line, recLoginA.id⟩
            (mkUser noLookup noLookup false recLoginA)
            (processAll noLookup noLookup false [recLoginA]).ibase⟩) ∧
     (¬sessA.time < recLoginA.time →
      step noLookup noLookup false
        (processAll noLookup noLookup false [recLoginA]) recLoginA =
        processAll noLookup noLookup false [recLoginA])) :=
  ⟨rfl, by decide,
    c6_theorem noLookup noLookup false
      (processAll noLookup noLookup false [recLoginA]) recLoginA sessA rfl
      (by decide)⟩

/-! ### C7: a truncated trailing record ends the pass cleanly -/

/-- Helper for C7: on a remainder shorter than one record the read
loop stops at once and hands back the accumulated state — both for the
clean end (no byte left, io.EOF) and for a truncated trailing record
(io.ErrUnexpectedEOF). -/
theorem getUsersLoop_short (cmdline euidName : Nat → Option String)
    (useEUID : Bool) (bs : List Nat) (h : bs.length < recSize)
    (s : TrackSt) :
    getUsersLoop cmdline euidName useEUID bs s = .ok s := by
  unfold getUsersLoop
  split
  · rename_i e heq
    cases e <;> simp
  · rename_i r rest heq
    exfalso
    unfold readRec at heq
    split_ifs at heq

/-- Helper for C7: with at least one full record remaining, the loop
decodes and processes the first record and continues on the rest. -/
theorem getUsersLoop_unroll (cmdline euidName : Nat → Option String)
    (useEUID : Bool) (bs : List Nat) (h : recSize ≤ bs.length)
    (s : TrackSt) :
    getUsersLoop cmdline euidName useEUID bs s =
      getUsersLoop cmdline euidName useEUID (bs.drop recSize)
        (step cmdline euidName useEUID s (decodeRec (bs.take recSize))) := by
  have hread : readRec bs =
      .ok (decodeRec (bs.take recSize), bs.drop recSize) := by
    unfold readRec
    have h1 : ¬bs.length = 0 := by
      simp only [recSize] at h
      omega
    have h2 : ¬bs.length < recSize := by omega
    simp [h1, h2]
  conv_lhs => unfold getUsersLoop
  split
  · rename_i e heq
    rw [hread] at heq
    cases heq
  · rename_i r rest heq
    rw [hread] at heq
    cases heq
    rfl

/-- Helper for C7: over a stream made of whole records the loop never
errors, and appending fewer bytes than one record to it does not
change the outcome. -/
theorem getUsersLoop_trunc (cmdline euidName : Nat → Option String)
    (useEUID : Bool) :
    ∀ (k : Nat) (bs : List Nat), bs.length = recSize * k →
      ∀ (extra : List Nat), extra.length < recSize → ∀ (s : TrackSt),
        getUsersLoop cmdline euidName useEUID (bs ++ extra) s =
          getUsersLoop cmdline euidName useEUID bs s ∧
        ∃ st, getUsersLoop cmdline euidName useEUID bs s =
          Except.ok st := by
  intro k
  induction k with
  | zero =>
    intro bs hlen extra hex s
    have hbs : bs = [] := by
      have : bs.length = 0 := by simpa using hlen
      exact List.eq_nil_of_length_eq_zero this
    subst hbs
    simp only [List.nil_append]
    rw [getUsersLoop_short cmdline euidName useEUID extra hex s,
      getUsersLoop_short cmdline euidName useEUID []
        (by simp [recSize]) s]
    exact ⟨rfl, s, rfl⟩
  | succ k ih =>
    intro bs hlen extra hex s
    have hge : recSize ≤ bs.length := by
      rw [hlen]
      calc recSize = recSize * 1 := by ring
        _ ≤ recSize * (k + 1) := Nat.mul_le_mul_left _ (by omega)
    have hgeA : recSize ≤ (bs ++ extra).length := by
      rw [List.length_append]
      omega
    rw [getUsersLoop_unroll cmdline euidName useEUID (bs ++ extra) hgeA s,
      getUsersLoop_unroll cmdline euidName useEUID bs hge s,
      List.take_append_of_le_length hge,
      List.drop_append_of_le_length hge]
    exact ih (bs.drop recSize)
      (by
        rw [List.length_drop, hlen]
        have : recSize * (k + 1) - recSize = recSize * k := by ring_nf; omega
        exact this)
      extra hex _

/-- C7.  A one-shot reconstruction over a byte stream whose tail is a
truncated record (fewer bytes than one full record) terminates exactly
as on the clean end of the whole-record part: the same session state
is returned and no error surfaces to the caller. -/
theorem c7_theorem (cmdline euidName : Nat → Option String)
    (useEUID : Bool) (bs extra : List Nat)
    (hdvd : recSize ∣ bs.length) (hex : extra.length < recSize) :
    getUsersBytes cmdline euidName useEUID (bs ++ extra) =
      getUsersBytes cmdline euidName useEUID bs ∧
    ∃ st, getUsersBytes cmdline euidName useEUID (bs ++ extra) =
      Except.ok st := by
  obtain ⟨k, hk⟩ := hdvd
  have h := getUsersLoop_trunc cmdline euidName useEUID k bs hk extra hex
    initSt
  refine ⟨h.1, ?_⟩
  obtain ⟨st, hst⟩ := h.2
  exact ⟨st, by
    unfold getUsersBytes
    rw [h.1]
    exact hst⟩

/-- C7, witness: one full all-zero record followed by a single stray
byte. -/
theorem c7_witness :
    recSize ∣ (List.replicate 384 0).length ∧
    ([1] : List Nat).length < recSize ∧
    (getUsersBytes noLookup noLookup false (List.replicate 384 0 ++ [1]) =
       getUsersBytes noLookup noLookup false (List.replicate 384 0) ∧
     ∃ st, getUsersBytes noLookup noLookup false
       (List.replicate 384 0 ++ [1]) = Except.ok st) :=
  ⟨by simp [recSize], by norm_num [recSize],
    c7_theorem noLookup noLookup false (List.replicate 384 0) [1]
      (by simp [recSize]) (by norm_num [recSize])⟩

end Gousers
